import Mathlib

/-!
Shallow embedding of the dialogue state machine of `termi`
(`internal/ui/ui.go`, the suggestion-list model of the secondary TUI,
and the error taxonomy of `internal/llm`).

Pure data is embedded directly; the bubbletea event handlers
(`Init`, `Update`'s dispatch to `handleKeyMsg`, `handleLLMAnalysis`,
`handleCopied`) become functions `AppModel → ... → AppModel × List Effect`,
where the returned `List Effect` stands for the `tea.Cmd` value
(`nil` ↦ `[]`, `tea.Batch(a, b)` ↦ `[a, b]`).  Rendering (`View`) and the
spinner/style fields are elided: they never influence a transition.
-/

namespace Termi

/-- `AppState` from `ui.go`: the tagged state of the dialogue machine. -/
inductive AppState where
  | init
  | analyzing
  | asking
  | selecting
  | executing
  | completed
  | error
  | canceled
  | copied
deriving DecidableEq

/-- `llm.ErrorType`: the closed error taxonomy of `internal/llm`. -/
inductive ErrorType where
  | auth
  | timeout
  | quota
  | network
  | general
deriving DecidableEq

/-- A Go `error` value as seen by the UI layer: either a typed
`*llm.LLMError` (its `Type` and `Message` fields; the wrapped cause `Err`
is elided because no code path inspected here reads it — the typed branch
of `formatLLMError` uses only `Type` and `Message`, and `errors.As`
succeeds on every `LLMError`, so the substring tier never sees one), or a
plain error built with `fmt.Errorf`, carrying just its message. -/
inductive GoErr where
  | llmError (t : ErrorType) (msg : String)
  | plain (msg : String)
deriving DecidableEq

/-- `suggest.Suggestion`: candidate command text plus provenance tag.
The `suggest` package itself is not among the provided files; the struct
shape is fully determined by its literal constructions
(`suggest.Suggestion{Text: ..., Source: ...}`) in `ui.go` and the list
model. -/
structure Suggestion where
  text : String
  source : String
deriving DecidableEq

/-- `startsWith s pre`: `pre` is a leading run of `s` (on char lists). -/
def startsWith : List Char → List Char → Bool
  | _, [] => true
  | [], _ :: _ => false
  | a :: s, b :: t => a = b && startsWith s t

/-- `containsSub s sub`: `sub` occurs contiguously inside `s`. -/
def containsSub : List Char → List Char → Bool
  | [], sub => startsWith [] sub
  | c :: t, sub => startsWith (c :: t) sub || containsSub t sub

/-- Go `strings.Contains`. -/
def strContains (s sub : String) : Bool :=
  containsSub s.data sub.data

/-- Go `unicode.IsSpace`: the Latin-1 cases `'\t' '\n' '\v' '\f' '\r' ' '`,
NEL U+0085 and NBSP U+00A0, plus the `White_Space` table above Latin-1:
U+1680, U+2000–U+200A, U+2028, U+2029, U+202F, U+205F and the
ideographic space U+3000. -/
def goIsSpace (c : Char) : Bool :=
  c = ' ' || c = '\t' || c = '\n' || c.val = 11 || c.val = 12 || c = '\r' ||
    c.val = 0x85 || c.val = 0xA0 || c.val = 0x1680 ||
    (0x2000 ≤ c.val && c.val ≤ 0x200A) ||
    c.val = 0x2028 || c.val = 0x2029 || c.val = 0x202F || c.val = 0x205F ||
    c.val = 0x3000

/-- Go `strings.TrimSpace`. -/
def trimSpace (s : String) : String :=
  String.mk (((s.data.dropWhile goIsSpace).reverse.dropWhile goIsSpace).reverse)

/-- The fields of `AppModel` (`ui.go`) that transitions read or write.
`textInput` is the text buffer of the `textinput` component
(`m.textInput.Value()`); spinner and lipgloss styles are view-only and
elided.  `cursor` is a Go `int`, embedded as `Int` (its guarded
increments/decrements never overflow). -/
structure AppModel where
  state : AppState
  query : String
  originalQuery : String
  candidates : List Suggestion
  cursor : Int
  err : Option GoErr
  inputPrompt : String
  textInput : String
  contextHistory : List String
  selectedCommand : String
  copiedCommand : String
deriving DecidableEq

/-- The effect half of a returned `tea.Cmd`. -/
inductive Effect where
  | spinnerTick
  | llmCall (prompt : String)
  | clipboardCopy (text : String)
  | quit
deriving DecidableEq

/-- The active LLM provider as the UI sees it: `llm.Enabled()` and the
provider's `Name()` (e.g. `"OpenAI"` in `providers/openai.go`,
`"Gemini"` in `providers/gemini.go`). -/
structure Provider where
  name : String
  enabled : Bool
deriving DecidableEq

/-- `NewAppModel` (`ui.go`): the zero-valued model in `StateInit`. -/
def NewAppModel (query : String) : AppModel where
  state := .init
  query := query
  originalQuery := query
  candidates := []
  cursor := 0
  err := none
  inputPrompt := ""
  textInput := ""
  contextHistory := []
  selectedCommand := ""
  copiedCommand := ""

/-- The prompt computed inside `analyzeLLMCmd` (`ui.go`):
`fullQuery := m.query; if len(m.contextHistory) > 0 { fullQuery =
strings.Join(m.contextHistory, " ") + " " + m.query }`. -/
def buildPrompt (history : List String) (query : String) : String :=
  if 0 < history.length then String.intercalate " " history ++ " " ++ query
  else query

/-- `analyzeLLMCmd` (`ui.go`) as the effect it dispatches; the closure
reads `m` when it runs, i.e. after the surrounding transition's
mutations, so callers pass the post-transition model. -/
def analyzeLLMCmd (m : AppModel) : Effect :=
  .llmCall (buildPrompt m.contextHistory m.query)

/-- `AppModel.Init` (`ui.go`): the synchronous precondition check on
`llm.Enabled()`, else enter `StateAnalyzing` and batch the spinner tick
with the single LLM call. -/
def AppModel.init (p : Provider) (m : AppModel) : AppModel × List Effect :=
  if p.enabled = false then
    ({ m with state := .error,
              err := some (.plain "LLM 未启用，请设置 OPENAI_API_KEY 环境变量") }, [])
  else
    let m2 := { m with state := .analyzing }
    (m2, [.spinnerTick, analyzeLLMCmd m2])

/-- `formatLLMError` (`ui.go`): the message of the error it returns.
Typed `*llm.LLMError` values are dispatched on `Type` first
(`errors.As`); untyped errors fall back to substring checks on the
message, in source order: `"API KEY"`, then `"timeout"`, then
`"quota"`, else the general fallback. -/
def formatLLMError : GoErr → String
  | .llmError t msg =>
    match t with
    | .auth => "请设置对应的 API KEY 环境变量"
    | .timeout => "网络请求超时，请检查网络连接"
    | .quota => "API 配额已用完，请检查账户"
    | .network => "网络连接失败，请检查连接"
    | .general => "LLM 服务出错: " ++ msg
  | .plain msg =>
    if strContains msg "API KEY" then "请设置对应的 API KEY 环境变量"
    else if strContains msg "timeout" then "网络请求超时，请检查网络连接"
    else if strContains msg "quota" then "API 配额已用完，请检查账户"
    else "LLM 服务出错: " ++ msg

/-- The taxonomy kind of the branch `formatLLMError` takes on a given
failure: the `Type` of a typed `LLMError`, and for untyped errors the
kind whose user message the substring tier selects. -/
def classifyKind : GoErr → ErrorType
  | .llmError t _ => t
  | .plain msg =>
    if strContains msg "API KEY" then .auth
    else if strContains msg "timeout" then .timeout
    else if strContains msg "quota" then .quota
    else .general

/-- `llmAnalysisMsg` (`ui.go`): the completion event of `analyzeLLMCmd`. -/
structure LLMAnalysisMsg where
  command : String
  ask : String
  err : Option GoErr
deriving DecidableEq

/-- `transitionToAsking` (`ui.go`). -/
def transitionToAsking (m : AppModel) (ask : String) : AppModel :=
  { m with state := .asking, inputPrompt := ask, textInput := "" }

/-- `transitionToSelecting` (`ui.go`): the single candidate carries the
constant source tag `"llm"`. -/
def transitionToSelecting (m : AppModel) (command : String) : AppModel :=
  { m with candidates := [⟨command, "llm"⟩], state := .selecting }

/-- `handleLLMAnalysis` (`ui.go`). -/
def handleLLMAnalysis (m : AppModel) (msg : LLMAnalysisMsg) :
    AppModel × List Effect :=
  match msg.err with
  | some e => ({ m with state := .error, err := some (.plain (formatLLMError e)) }, [])
  | none =>
    if msg.ask ≠ "" then (transitionToAsking m msg.ask, [])
    else if msg.command ≠ "" then (transitionToSelecting m msg.command, [])
    else ({ m with state := .error,
                   err := some (.plain "LLM 未能生成可执行命令，请尝试提供更详细的描述") }, [])

/-- The key events `handleKeyMsg` distinguishes: special keys by
`msg.Type` and the letter keys by `msg.String()`; every other key is
`other`. -/
inductive Key where
  | enter
  | ctrlC
  | esc
  | up
  | down
  | charK
  | charJ
  | charQ
  | charC
  | other (s : String)
deriving DecidableEq

/-- `executeCommand` (`ui.go`).  The Go guard is `m.cursor >=
len(m.candidates)`; a negative cursor would make the subsequent index
panic in Go, and is unreachable (the cursor never goes below 0). -/
def executeCommand (m : AppModel) : AppModel × List Effect :=
  if (m.candidates.length : Int) ≤ m.cursor then (m, [])
  else
    let choice := m.candidates.getD m.cursor.toNat ⟨"", ""⟩
    ({ m with selectedCommand := choice.text, state := .completed }, [.quit])

/-- `copyCommand` (`ui.go`): records the copied text and dispatches the
asynchronous clipboard write. -/
def copyCommand (m : AppModel) : AppModel × List Effect :=
  if (m.candidates.length : Int) ≤ m.cursor then (m, [])
  else
    let choice := m.candidates.getD m.cursor.toNat ⟨"", ""⟩
    ({ m with copiedCommand := choice.text }, [.clipboardCopy choice.text])

/-- `copiedMsg` (`ui.go`): completion event of the clipboard write. -/
structure CopiedMsg where
  success : Bool
  err : Option GoErr
deriving DecidableEq

/-- Go's `Error()` string of an embedded error value as `fmt`'s `%v`
renders it: the `Message` of an `LLMError` (whose wrapped cause is
elided, see `GoErr`), or the plain message. -/
def errText : GoErr → String
  | .llmError _ msg => msg
  | .plain msg => msg

/-- `handleCopied` (`ui.go`): a clipboard failure is stored as
`fmt.Errorf("复制失败: %v", msg.err)` with the raw error text — it is not
routed through `formatLLMError`. -/
def handleCopied (m : AppModel) (msg : CopiedMsg) : AppModel × List Effect :=
  match msg.err with
  | some e =>
    ({ m with state := .error,
              err := some (.plain ("复制失败: " ++ errText e)) }, [])
  | none => ({ m with state := .copied }, [.quit])

/-- `handleKeyMsg` (`ui.go`).  In `StateSelecting` the Go code runs two
sequential switches (on `msg.Type`, then on `msg.String()`); their cases
are disjoint, so they merge into one match. -/
def handleKeyMsg (m : AppModel) (k : Key) : AppModel × List Effect :=
  match m.state with
  | .asking =>
    match k with
    | .enter =>
      let input := trimSpace m.textInput
      if input = "" then (m, [])
      else
        let m2 := { m with
          contextHistory := m.contextHistory ++ [m.inputPrompt ++ " " ++ input],
          textInput := "",
          state := .analyzing }
        (m2, [.spinnerTick, analyzeLLMCmd m2])
    | .ctrlC => ({ m with state := .canceled }, [.quit])
    | .esc => ({ m with state := .canceled }, [.quit])
    | _ => (m, [])
  | .selecting =>
    match k with
    | .ctrlC => ({ m with state := .canceled }, [.quit])
    | .esc => ({ m with state := .canceled }, [.quit])
    | .up => if 0 < m.cursor then ({ m with cursor := m.cursor - 1 }, []) else (m, [])
    | .down =>
      if m.cursor < (m.candidates.length : Int) - 1 then
        ({ m with cursor := m.cursor + 1 }, [])
      else (m, [])
    | .enter => executeCommand m
    | .charK => if 0 < m.cursor then ({ m with cursor := m.cursor - 1 }, []) else (m, [])
    | .charJ =>
      if m.cursor < (m.candidates.length : Int) - 1 then
        ({ m with cursor := m.cursor + 1 }, [])
      else (m, [])
    | .charQ => ({ m with state := .canceled }, [.quit])
    | .charC => copyCommand m
    | _ => (m, [])
  | _ =>
    match k with
    | .ctrlC => ({ m with state := .canceled }, [.quit])
    | .charQ => ({ m with state := .canceled }, [.quit])
    | _ => (m, [])

/-- The `llmSuggestionMsg` branch of `model.Update` in the suggestion-list
TUI: skip an empty suggestion, otherwise append `{Text: s, Source: "llm"}`
unless some existing item already has `Text == s`. -/
def dedupAppendLLM (items : List Suggestion) (s : String) : List Suggestion :=
  if s = "" then items
  else if items.any (fun it => it.text == s) then items
  else items ++ [⟨s, "llm"⟩]

/-!
Reachability.  One run of the program starts at `NewAppModel` and then
processes events one at a time on the single bubbletea loop.  An
`llmAnalysisMsg` can only be delivered while the machine is in
`StateAnalyzing`: each entry into `StateAnalyzing` dispatches exactly one
`analyzeLLMCmd`, its completion is the only producer of that message, and
every exit from `StateAnalyzing` other than quitting happens exactly by
consuming it (the §5 ordering discipline of the event loop).  While the
machine is in `StateAsking`, `Update` also feeds every message to
`m.textInput.Update`, the rune-editing of the `textinput` component;
its only observable effect on the dialogue state is the value of the
text buffer, modelled as an event that rewrites `textInput` to an
arbitrary string. -/

/-- The cursor-move keys of `StateSelecting`: arrow keys and the
vi-style letters. -/
def isMoveKey (k : Key) : Prop :=
  k = .up ∨ k = .down ∨ k = .charK ∨ k = .charJ

/-- Process a sequence of key events through `handleKeyMsg`. -/
def applyKeys (m : AppModel) (ks : List Key) : AppModel :=
  ks.foldl (fun m k => (handleKeyMsg m k).1) m

/-- The cursor invariant of the candidate list: within
`[0, len(candidates) - 1]` when the list is non-empty, pinned to 0 when
it is empty. -/
def cursorInRange (m : AppModel) : Prop :=
  (m.candidates ≠ [] → 0 ≤ m.cursor ∧ m.cursor ≤ (m.candidates.length : Int) - 1)
  ∧ (m.candidates = [] → m.cursor = 0)

/-- A clarification turn whose input buffer holds a single blank. -/
def blankSubmitModel : AppModel :=
  { NewAppModel "删除文件" with
      state := .asking, inputPrompt := "你要删除哪个文件?", textInput := " " }

/-- A clarification turn whose input buffer holds the answer
`"log.txt"`. -/
def answerSubmitModel : AppModel :=
  { NewAppModel "删除文件" with
      state := .asking, inputPrompt := "你要删除哪个文件?", textInput := "log.txt" }

/-- A clarification turn whose input buffer holds only the ideographic
space U+3000 (a full-width space as typed by a CJK input method). -/
def ideographicBlankModel : AppModel :=
  { NewAppModel "删除文件" with
      state := .asking, inputPrompt := "你要删除哪个文件?", textInput := "　" }

/-- A selection screen with two candidates and the cursor on the
first. -/
def selectSample : AppModel :=
  { NewAppModel "列出文件" with
      state := .selecting,
      candidates := [⟨"ls -la", "llm"⟩, ⟨"ls", "static"⟩] }

/-- The machine two turns into a run: booted with an enabled backend on
the query `"删除文件"`, asked the clarification `"你要删除哪个文件?"` by the
backend, answered `"log.txt"`, and analyzing again — its context history
now holds the combined question/answer entry. -/
def secondTurnModel : AppModel :=
  (handleKeyMsg
    { (handleLLMAnalysis ((NewAppModel "删除文件").init ⟨"OpenAI", true⟩).1
        ⟨"", "你要删除哪个文件?", none⟩).1 with textInput := "log.txt" }
    .enter).1

/-- States reachable along one run of the dialogue machine.  `edit`
is the `textinput` component writing the input buffer while the machine
waits in `StateAsking` (`m.textInput.Update` in `Update`): typing can
leave any string in the buffer, and it touches no other field. -/
inductive Reachable : AppModel → Prop where
  | start (q : String) : Reachable (NewAppModel q)
  | boot (q : String) (p : Provider) : Reachable ((NewAppModel q).init p).1
  | key {m : AppModel} (k : Key) : Reachable m → Reachable (handleKeyMsg m k).1
  | edit {m : AppModel} (s : String) : Reachable m →
      m.state = .asking → Reachable { m with textInput := s }
  | llm {m : AppModel} (msg : LLMAnalysisMsg) : Reachable m →
      m.state = .analyzing → Reachable (handleLLMAnalysis m msg).1
  | copied {m : AppModel} (msg : CopiedMsg) : Reachable m →
      Reachable (handleCopied m msg).1

/-- The states the machine can inhabit before its candidate list ever
becomes selectable. -/
def inPreSelect (m : AppModel) : Prop :=
  m.state = .init ∨ m.state = .analyzing ∨ m.state = .asking

/-- `handleLLMAnalysis` never touches the cursor. -/
lemma handleLLMAnalysis_cursor (m : AppModel) (msg : LLMAnalysisMsg) :
    (handleLLMAnalysis m msg).1.cursor = m.cursor := by
  rcases msg with ⟨c, a, e⟩
  cases e with
  | none =>
    simp only [handleLLMAnalysis]
    split
    · rfl
    · split <;> rfl
  | some e => rfl

/-- Key events preserve the pre-selection cursor invariant. -/
lemma handleKeyMsg_preselect_cursor (m : AppModel) (k : Key)
    (ih : inPreSelect m → m.cursor = 0) :
    inPreSelect (handleKeyMsg m k).1 → (handleKeyMsg m k).1.cursor = 0 := by
  unfold handleKeyMsg
  cases hst : m.state <;> cases k <;>
    simp_all [inPreSelect, executeCommand, copyCommand] <;>
    repeat' split <;> simp_all

/-- Along every run, the cursor is still 0 whenever the machine is in
`Init`, `Analyzing` or `Asking`. -/
lemma reachable_preselect_cursor {m : AppModel} (h : Reachable m) :
    inPreSelect m → m.cursor = 0 := by
  induction h with
  | start q => intro _; rfl
  | boot q p =>
    intro _
    unfold AppModel.init
    split <;> rfl
  | key k _ ih => exact handleKeyMsg_preselect_cursor _ k ih
  | edit s _ hst ih => exact fun h => ih h
  | llm msg _ hst ih =>
    intro _
    rw [handleLLMAnalysis_cursor]
    exact ih (Or.inr (Or.inl hst))
  | copied msg _ ih =>
    rcases msg with ⟨s, e⟩
    cases e <;> simp [handleCopied, inPreSelect]

/-- A cursor-move key processed in `StateSelecting` keeps the state and
candidate list and preserves the cursor range invariant. -/
lemma moveKey_preserves (m : AppModel) (k : Key) (hk : isMoveKey k)
    (hst : m.state = .selecting) (hr : cursorInRange m) :
    (handleKeyMsg m k).1.state = .selecting
  ∧ (handleKeyMsg m k).1.candidates = m.candidates
  ∧ cursorInRange (handleKeyMsg m k).1 := by
  obtain ⟨st, q, oq, cands, cur, er, ip, ti, ch, sc, cc⟩ := m
  rcases hr with ⟨hne, hemp⟩
  simp only at hst hne hemp
  subst hst
  have hlen : cands = [] → cands.length = 0 := fun h => by simp [h]
  rcases hk with rfl | rfl | rfl | rfl
  · by_cases hc : 0 < cur
    · unfold handleKeyMsg
      simp only []
      rw [if_pos hc]
      refine ⟨rfl, rfl, ?_, ?_⟩ <;> dsimp only <;> intro h2
      · obtain ⟨a, b⟩ := hne h2
        exact ⟨by omega, by omega⟩
      · have := hemp h2
        omega
    · unfold handleKeyMsg
      simp only []
      rw [if_neg hc]
      exact ⟨rfl, rfl, hne, hemp⟩
  · by_cases hc : cur < (cands.length : Int) - 1
    · unfold handleKeyMsg
      simp only []
      rw [if_pos hc]
      refine ⟨rfl, rfl, ?_, ?_⟩ <;> dsimp only <;> intro h2
      · obtain ⟨a, b⟩ := hne h2
        exact ⟨by omega, by omega⟩
      · have h0 := hemp h2
        have hl := hlen h2
        omega
    · unfold handleKeyMsg
      simp only []
      rw [if_neg hc]
      exact ⟨rfl, rfl, hne, hemp⟩
  · by_cases hc : 0 < cur
    · unfold handleKeyMsg
      simp only []
      rw [if_pos hc]
      refine ⟨rfl, rfl, ?_, ?_⟩ <;> dsimp only <;> intro h2
      · obtain ⟨a, b⟩ := hne h2
        exact ⟨by omega, by omega⟩
      · have := hemp h2
        omega
    · unfold handleKeyMsg
      simp only []
      rw [if_neg hc]
      exact ⟨rfl, rfl, hne, hemp⟩
  · by_cases hc : cur < (cands.length : Int) - 1
    · unfold handleKeyMsg
      simp only []
      rw [if_pos hc]
      refine ⟨rfl, rfl, ?_, ?_⟩ <;> dsimp only <;> intro h2
      · obtain ⟨a, b⟩ := hne h2
        exact ⟨by omega, by omega⟩
      · have h0 := hemp h2
        have hl := hlen h2
        omega
    · unfold handleKeyMsg
      simp only []
      rw [if_neg hc]
      exact ⟨rfl, rfl, hne, hemp⟩

/-- Folding cursor-move keys over a selection screen preserves the
cursor range invariant (and the state and candidates). -/
lemma applyKeys_moves_inv (ks : List Key) (m : AppModel)
    (hks : ∀ k ∈ ks, isMoveKey k) (hst : m.state = .selecting)
    (hr : cursorInRange m) :
    (applyKeys m ks).state = .selecting ∧ cursorInRange (applyKeys m ks) := by
  induction ks generalizing m with
  | nil => exact ⟨hst, hr⟩
  | cons k ks ih =>
    have hk := hks k (List.mem_cons_self k ks)
    have hrest : ∀ k' ∈ ks, isMoveKey k' := fun k' h' => hks k' (List.mem_cons_of_mem k h')
    have hp := moveKey_preserves m k hk hst hr
    simpa [applyKeys] using ih ((handleKeyMsg m k).1) hrest hp.1 hp.2.2

/-- C9: for every state of the dialogue machine, processing the
process-level cancel key Ctrl+C results in state `Canceled`, overriding
the state's own transition table and independently of the candidate
list: `handleKeyMsg` maps Ctrl+C to `StateCanceled` in `StateAsking`,
in `StateSelecting`, and in the default branch covering every other
state. -/
theorem C9_ctrlC_always_cancels (m : Termi.AppModel) :
    (Termi.handleKeyMsg m .ctrlC).1.state = .canceled := by
  unfold Termi.handleKeyMsg
  cases hst : m.state <;> simp

/-- C3: the prompt `analyzeLLMCmd` sends to the backend is
`join(history, " ") + " " + query` when the context history is non-empty
and `query` alone when it is empty; it is computed by the pure function
`buildPrompt` of (history, query), and both transitions into
`StateAnalyzing` (`Init` with an enabled backend, and submitting a
non-blank clarification from `StateAsking`) dispatch exactly the
`llmCall` effect carrying `buildPrompt` of the post-transition model's
history and query. -/
theorem C3_prompt_rule :
    (∀ (h : List String) (q : String), h ≠ [] →
        Termi.buildPrompt h q = String.intercalate " " h ++ " " ++ q)
  ∧ (∀ q : String, Termi.buildPrompt [] q = q)
  ∧ (∀ (q : String) (p : Termi.Provider), p.enabled = true →
        ((Termi.NewAppModel q).init p).2
          = [.spinnerTick, .llmCall (Termi.buildPrompt [] q)])
  ∧ (∀ m : Termi.AppModel, m.state = .asking → Termi.trimSpace m.textInput ≠ "" →
        (Termi.handleKeyMsg m .enter).2
          = [.spinnerTick,
             .llmCall (Termi.buildPrompt
               ((Termi.handleKeyMsg m .enter).1.contextHistory)
               ((Termi.handleKeyMsg m .enter).1.query))]) := by
  refine ⟨?_, ?_, ?_, ?_⟩
  · intro h q hne
    have : 0 < h.length := List.length_pos.mpr hne
    simp [Termi.buildPrompt, this]
  · intro q; rfl
  · intro q p hp
    simp [Termi.AppModel.init, hp, Termi.NewAppModel, Termi.analyzeLLMCmd]
  · intro m hst hne
    unfold Termi.handleKeyMsg
    rw [hst]
    simp only []
    rw [if_neg hne]
    rfl

/-- C3 witness: the prompt rule evaluated at a concrete non-empty
history and at the empty history. -/
theorem C3_prompt_rule_witness :
    Termi.buildPrompt ["你要删除哪个文件? log.txt"] "删除文件"
        = "你要删除哪个文件? log.txt 删除文件"
  ∧ Termi.buildPrompt [] "ping baidu.com" = "ping baidu.com" := by
  constructor
  · rw [C3_prompt_rule.1 ["你要删除哪个文件? log.txt"] "删除文件" (by decide)]
    rfl
  · exact C3_prompt_rule.2.1 "ping baidu.com"

/-- C8: the dedup-append of the suggestion-list model appends a new
`{Text: s, Source: "llm"}` entry only when no existing item has the same
text — sources are ignored by the comparison — so appending the same
non-empty text twice to the empty list yields a one-element list, and
appending a text that already occurs leaves the list unchanged. -/
theorem C8_dedupAppend_spec (items : List Termi.Suggestion) (s : String)
    (hs : s ≠ "") :
    ((∃ it ∈ items, it.text = s) → Termi.dedupAppendLLM items s = items)
  ∧ ((¬ ∃ it ∈ items, it.text = s) →
        Termi.dedupAppendLLM items s = items ++ [⟨s, "llm"⟩])
  ∧ (Termi.dedupAppendLLM (Termi.dedupAppendLLM [] s) s).length = 1 := by
  refine ⟨?_, ?_, ?_⟩
  · intro hex
    have : items.any (fun it => it.text == s) = true := by
      rcases hex with ⟨it, hmem, heq⟩
      exact List.any_eq_true.mpr ⟨it, hmem, beq_iff_eq.mpr heq⟩
    simp [Termi.dedupAppendLLM, hs, this]
  · intro hnex
    have : items.any (fun it => it.text == s) = false := by
      by_contra hany
      exact hnex (by
        rcases List.any_eq_true.mp (Bool.of_not_eq_false hany) with ⟨it, hmem, heq⟩
        exact ⟨it, hmem, beq_iff_eq.mp heq⟩)
    simp [Termi.dedupAppendLLM, hs, this]
  · simp [Termi.dedupAppendLLM, hs]

/-- C8 witness: dedup-appending `"ls -la"` twice to the empty list gives
a single-entry list. -/
theorem C8_dedupAppend_spec_witness :
    (Termi.dedupAppendLLM (Termi.dedupAppendLLM [] "ls -la") "ls -la").length = 1 :=
  (C8_dedupAppend_spec [] "ls -la" (by decide)).2.2

/-- C10: when a backend reply carries a non-empty question, the question
wins: `handleLLMAnalysis` checks `msg.ask` before `msg.command`, so a
successful reply with both fields non-empty moves the machine to
`StateAsking` holding that question, discards the command for the turn
(candidate list and selected command untouched), and the resulting state
is never `StateSelecting` for any reply whose question is non-empty. -/
theorem C10_question_priority (m : Termi.AppModel) (msg : Termi.LLMAnalysisMsg)
    (ha : msg.ask ≠ "") :
    (msg.err = none →
        (Termi.handleLLMAnalysis m msg).1.state = .asking
      ∧ (Termi.handleLLMAnalysis m msg).1.inputPrompt = msg.ask
      ∧ (Termi.handleLLMAnalysis m msg).1.candidates = m.candidates
      ∧ (Termi.handleLLMAnalysis m msg).1.selectedCommand = m.selectedCommand)
  ∧ (Termi.handleLLMAnalysis m msg).1.state ≠ .selecting := by
  rcases msg with ⟨c, a, e⟩
  cases e with
  | none =>
    simp only [Termi.handleLLMAnalysis]
    rw [if_pos ha]
    exact ⟨fun _ => ⟨rfl, rfl, rfl, rfl⟩, by simp [Termi.transitionToAsking]⟩
  | some e =>
    exact ⟨fun h => by simp at h, by simp [Termi.handleLLMAnalysis]⟩

/-- C10 witness: a reply with both `command = "ls"` and
`ask = "哪个目录?"` lands in `StateAsking` with the question, not in
`StateSelecting`. -/
theorem C10_question_priority_witness :
    (Termi.handleLLMAnalysis (Termi.NewAppModel "q")
        ⟨"ls", "哪个目录?", none⟩).1.state = .asking
  ∧ (Termi.handleLLMAnalysis (Termi.NewAppModel "q")
        ⟨"ls", "哪个目录?", none⟩).1.state ≠ .selecting := by
  have h := C10_question_priority (Termi.NewAppModel "q")
    ⟨"ls", "哪个目录?", none⟩ (by decide)
  exact ⟨(h.1 rfl).1, h.2⟩

/-- C1: a backend reply processed in `StateAnalyzing` (along any run)
moves the machine (a) on failure to `StateError` holding the classified
failure, (b) on a question-only reply to `StateAsking` holding the
question, a cleared input buffer and an unchanged context history,
(c) on a command-only reply to `StateSelecting` with the single
candidate carrying that command text and cursor 0, and (d) on an empty
reply to `StateError` with a failure the classifier ranks as
`General`. -/
theorem C1_analyzing_reply (m : Termi.AppModel) (msg : Termi.LLMAnalysisMsg)
    (hr : Termi.Reachable m) (hst : m.state = .analyzing) :
    (∀ e, msg.err = some e →
        (Termi.handleLLMAnalysis m msg).1.state = .error
      ∧ (Termi.handleLLMAnalysis m msg).1.err
          = some (.plain (Termi.formatLLMError e)))
  ∧ (msg.err = none → msg.ask ≠ "" → msg.command = "" →
        (Termi.handleLLMAnalysis m msg).1.state = .asking
      ∧ (Termi.handleLLMAnalysis m msg).1.inputPrompt = msg.ask
      ∧ (Termi.handleLLMAnalysis m msg).1.textInput = ""
      ∧ (Termi.handleLLMAnalysis m msg).1.contextHistory = m.contextHistory)
  ∧ (msg.err = none → msg.command ≠ "" → msg.ask = "" →
        (Termi.handleLLMAnalysis m msg).1.state = .selecting
      ∧ (Termi.handleLLMAnalysis m msg).1.candidates = [⟨msg.command, "llm"⟩]
      ∧ (Termi.handleLLMAnalysis m msg).1.cursor = 0)
  ∧ (msg.err = none → msg.command = "" → msg.ask = "" →
        (Termi.handleLLMAnalysis m msg).1.state = .error
      ∧ ∃ e, (Termi.handleLLMAnalysis m msg).1.err = some e
           ∧ Termi.classifyKind e = .general) := by
  have hcur : m.cursor = 0 :=
    Termi.reachable_preselect_cursor hr (Or.inr (Or.inl hst))
  rcases msg with ⟨c, a, e⟩
  cases e with
  | some e =>
    refine ⟨?_, ?_, ?_, ?_⟩
    · intro e' he'
      cases he'
      exact ⟨rfl, rfl⟩
    · intro h; cases h
    · intro h; cases h
    · intro h; cases h
  | none =>
    refine ⟨?_, ?_, ?_, ?_⟩
    · intro e' he'; cases he'
    · intro _ ha _
      simp only [Termi.handleLLMAnalysis]
      rw [if_pos ha]
      exact ⟨rfl, rfl, rfl, rfl⟩
    · intro _ hc ha
      simp only [Termi.handleLLMAnalysis]
      rw [if_neg (by simpa using ha), if_pos hc]
      refine ⟨rfl, rfl, ?_⟩
      show m.cursor = 0
      exact hcur
    · intro _ hc ha
      simp only [Termi.handleLLMAnalysis]
      rw [if_neg (by simpa using ha), if_neg (by simpa using hc)]
      exact ⟨rfl, ⟨_, rfl, by decide⟩⟩

/-- C1 witness: two turns into a run — after the backend asked
`"你要删除哪个文件?"` and the user answered `"log.txt"`, so the machine is
analyzing again over a non-empty context history — a command-only reply
lands in `StateSelecting` with the single candidate and cursor 0. -/
theorem C1_analyzing_reply_witness :
    Termi.secondTurnModel.contextHistory = ["你要删除哪个文件? log.txt"]
  ∧ (Termi.handleLLMAnalysis Termi.secondTurnModel
        ⟨"rm log.txt", "", none⟩).1.state = .selecting
  ∧ (Termi.handleLLMAnalysis Termi.secondTurnModel
        ⟨"rm log.txt", "", none⟩).1.candidates = [⟨"rm log.txt", "llm"⟩]
  ∧ (Termi.handleLLMAnalysis Termi.secondTurnModel
        ⟨"rm log.txt", "", none⟩).1.cursor = 0 := by
  have hr : Termi.Reachable Termi.secondTurnModel :=
    Termi.Reachable.key .enter
      (Termi.Reachable.edit "log.txt"
        (Termi.Reachable.llm ⟨"", "你要删除哪个文件?", none⟩
          (Termi.Reachable.boot "删除文件" ⟨"OpenAI", true⟩) (by decide))
        (by decide))
  have h := C1_analyzing_reply Termi.secondTurnModel
    ⟨"rm log.txt", "", none⟩ hr (by decide)
  have h3 := h.2.2.1 rfl (by decide) rfl
  exact ⟨by decide, h3.1, h3.2.1, h3.2.2⟩

/-- C2 counterexample: in `StateAsking` with the non-empty input buffer
`" "`, submitting is a complete no-op — no context-history entry is
appended and the machine stays in `StateAsking` — because the code trims
whitespace before the emptiness check, contradicting the claim that any
non-empty buffer is appended and analyzed. -/
theorem C2_counterexample :
    Termi.blankSubmitModel.state = .asking
  ∧ Termi.blankSubmitModel.textInput ≠ ""
  ∧ (Termi.handleKeyMsg Termi.blankSubmitModel .enter).1 = Termi.blankSubmitModel
  ∧ (Termi.handleKeyMsg Termi.blankSubmitModel .enter).2 = [] := by decide

/-- C2 (amended): in `StateAsking`, submitting a buffer that is empty
after whitespace trimming leaves the model and effects untouched, while
submitting a buffer with non-whitespace content appends exactly one
entry — `prompt + " " + trimSpace(buffer)` — to the context history
(all earlier entries kept in place) and moves the machine to
`StateAnalyzing`. -/
theorem C2_amended_submit (m : Termi.AppModel) (hst : m.state = .asking) :
    (Termi.trimSpace m.textInput = "" →
        Termi.handleKeyMsg m .enter = (m, []))
  ∧ (Termi.trimSpace m.textInput ≠ "" →
        (Termi.handleKeyMsg m .enter).1.state = .analyzing
      ∧ (Termi.handleKeyMsg m .enter).1.contextHistory
          = m.contextHistory
              ++ [m.inputPrompt ++ " " ++ Termi.trimSpace m.textInput]) := by
  constructor
  · intro h
    unfold Termi.handleKeyMsg
    rw [hst]
    simp only []
    rw [if_pos h]
  · intro h
    unfold Termi.handleKeyMsg
    rw [hst]
    simp only []
    rw [if_neg h]
    exact ⟨rfl, rfl⟩

/-- C2 witness: answering `"log.txt"` to the question
`"你要删除哪个文件?"` appends exactly the combined entry and starts a new
analysis, while a buffer holding only the ideographic space U+3000
(non-empty, but trimmed to empty by `strings.TrimSpace`'s Unicode
whitespace) submits as a complete no-op. -/
theorem C2_amended_submit_witness :
    (Termi.handleKeyMsg Termi.answerSubmitModel .enter).1.state = .analyzing
  ∧ (Termi.handleKeyMsg Termi.answerSubmitModel .enter).1.contextHistory
      = ["你要删除哪个文件? log.txt"]
  ∧ Termi.ideographicBlankModel.textInput ≠ ""
  ∧ Termi.handleKeyMsg Termi.ideographicBlankModel .enter
      = (Termi.ideographicBlankModel, []) := by
  have h := (C2_amended_submit Termi.answerSubmitModel rfl).2 (by decide)
  refine ⟨h.1, ?_, by decide, ?_⟩
  · rw [h.2]
    decide
  · exact (C2_amended_submit Termi.ideographicBlankModel rfl).1 (by decide)

/-- C4: any sequence of cursor-move keys (arrows or vi-style `k`/`j`)
processed in `StateSelecting` keeps the cursor inside
`[0, len(candidates) - 1]` when the candidate list is non-empty and at 0
when it is empty; moreover a move past either end is a no-op. -/
theorem C4_cursor_bounds (m : Termi.AppModel) (ks : List Termi.Key)
    (hks : ∀ k ∈ ks, Termi.isMoveKey k) (hst : m.state = .selecting)
    (hr : Termi.cursorInRange m) :
    Termi.cursorInRange (Termi.applyKeys m ks)
  ∧ (m.cursor = 0 →
        (Termi.handleKeyMsg m .up).1 = m ∧ (Termi.handleKeyMsg m .charK).1 = m)
  ∧ (m.cursor = (m.candidates.length : Int) - 1 →
        (Termi.handleKeyMsg m .down).1 = m
      ∧ (Termi.handleKeyMsg m .charJ).1 = m) := by
  refine ⟨(Termi.applyKeys_moves_inv ks m hks hst hr).2, ?_, ?_⟩
  · intro h0
    constructor <;>
    · unfold Termi.handleKeyMsg
      rw [hst]
      simp only []
      rw [if_neg (by omega)]
  · intro hend
    constructor <;>
    · unfold Termi.handleKeyMsg
      rw [hst]
      simp only []
      rw [if_neg (by omega)]

/-- C4 witness: five moves over a two-candidate list starting at cursor
0 stay in range, and moving up at the top edge is a no-op. -/
theorem C4_cursor_bounds_witness :
    Termi.cursorInRange
      (Termi.applyKeys Termi.selectSample [.down, .charJ, .up, .charK, .charK])
  ∧ (Termi.handleKeyMsg Termi.selectSample .up).1 = Termi.selectSample := by
  have h := C4_cursor_bounds Termi.selectSample [.down, .charJ, .up, .charK, .charK]
    (by intro k hk; fin_cases hk <;> simp [Termi.isMoveKey])
    rfl (by constructor <;> decide)
  exact ⟨h.1, (h.2.1 rfl).1⟩

/-- C5 counterexample: with the backend disabled, `Init` stores the
plain error `"LLM 未启用，请设置 OPENAI_API_KEY 环境变量"`; that message does not
contain the substring `"API KEY"` (the underscore breaks it), so the
program's own classifier ranks it `General`, not the claimed `Auth`. -/
theorem C5_counterexample :
    ((Termi.NewAppModel "ls").init ⟨"OpenAI", false⟩).1.state = .error
  ∧ ((Termi.NewAppModel "ls").init ⟨"OpenAI", false⟩).1.err
      = some (.plain "LLM 未启用，请设置 OPENAI_API_KEY 环境变量")
  ∧ Termi.strContains "LLM 未启用，请设置 OPENAI_API_KEY 环境变量" "API KEY" = false
  ∧ Termi.classifyKind (.plain "LLM 未启用，请设置 OPENAI_API_KEY 环境变量")
      = .general
  ∧ Termi.ErrorType.general ≠ Termi.ErrorType.auth := by decide

/-- C5 (amended): at process start, a disabled backend moves the machine
synchronously to `StateError` carrying the untyped "LLM not enabled, set
OPENAI_API_KEY" error — which the classifier ranks `General`, not Auth —
with no effect dispatched; an enabled backend moves it to
`StateAnalyzing` with the initial query, an empty context history, and
exactly one asynchronous backend call among the dispatched effects. -/
theorem C5_amended_init (q : String) (p : Termi.Provider) :
    (p.enabled = false →
        ((Termi.NewAppModel q).init p).1.state = .error
      ∧ ((Termi.NewAppModel q).init p).1.err
          = some (.plain "LLM 未启用，请设置 OPENAI_API_KEY 环境变量")
      ∧ Termi.classifyKind (.plain "LLM 未启用，请设置 OPENAI_API_KEY 环境变量")
          = .general
      ∧ ((Termi.NewAppModel q).init p).2 = [])
  ∧ (p.enabled = true →
        ((Termi.NewAppModel q).init p).1.state = .analyzing
      ∧ ((Termi.NewAppModel q).init p).1.query = q
      ∧ ((Termi.NewAppModel q).init p).1.contextHistory = []
      ∧ ((Termi.NewAppModel q).init p).2.countP
          (fun e => match e with | .llmCall _ => true | _ => false) = 1) := by
  constructor
  · intro hp
    unfold Termi.AppModel.init
    rw [if_pos hp]
    exact ⟨rfl, rfl, by decide, rfl⟩
  · intro hp
    unfold Termi.AppModel.init
    rw [if_neg (by simp [hp])]
    exact ⟨rfl, rfl, rfl, rfl⟩

/-- C5 witness: the amended `Init` behaviour evaluated with the backend
disabled and enabled. -/
theorem C5_amended_init_witness :
    ((Termi.NewAppModel "ls").init ⟨"OpenAI", false⟩).2 = []
  ∧ ((Termi.NewAppModel "ls").init ⟨"OpenAI", true⟩).1.state = .analyzing := by
  refine ⟨((C5_amended_init "ls" ⟨"OpenAI", false⟩).1 rfl).2.2.2, ?_⟩
  exact ((C5_amended_init "ls" ⟨"OpenAI", true⟩).2 rfl).1

/-- C6 counterexample: the untyped tier of the classifier has no
transport/connectivity rule at all — the concrete untyped transport
failure `"network error: connection refused"` is ranked `General` and
given the General user message, not `Network` as the claim's priority
list requires. -/
theorem C6_counterexample :
    Termi.strContains "network error: connection refused" "network" = true
  ∧ Termi.classifyKind (.plain "network error: connection refused") = .general
  ∧ Termi.formatLLMError (.plain "network error: connection refused")
      = "LLM 服务出错: network error: connection refused"
  ∧ Termi.ErrorType.general ≠ Termi.ErrorType.network := by decide

/-- C6 (amended): the classifier is a total function; typed failures are
classified by type inspection first (each `LLMError` type to its own
kind and user message); untyped failures fall back to substring
heuristics on the message in priority order `"API KEY"` → Auth,
`"timeout"` → Timeout, `"quota"` → Quota, anything else → General — the
untyped tier has no Network rule, so only typed failures can be ranked
`Network`. -/
theorem C6_amended_classifier :
    (∀ (t : Termi.ErrorType) (msg : String),
        Termi.classifyKind (.llmError t msg) = t)
  ∧ (∀ msg, Termi.strContains msg "API KEY" = true →
        Termi.classifyKind (.plain msg) = .auth)
  ∧ (∀ msg, Termi.strContains msg "API KEY" = false →
        Termi.strContains msg "timeout" = true →
        Termi.classifyKind (.plain msg) = .timeout)
  ∧ (∀ msg, Termi.strContains msg "API KEY" = false →
        Termi.strContains msg "timeout" = false →
        Termi.strContains msg "quota" = true →
        Termi.classifyKind (.plain msg) = .quota)
  ∧ (∀ msg, Termi.strContains msg "API KEY" = false →
        Termi.strContains msg "timeout" = false →
        Termi.strContains msg "quota" = false →
        Termi.classifyKind (.plain msg) = .general)
  ∧ (∀ msg, Termi.classifyKind (.plain msg) ≠ .network)
  ∧ (∀ msg, Termi.formatLLMError (.llmError .network msg) = "网络连接失败，请检查连接")
  ∧ (∀ msg, Termi.strContains msg "API KEY" = false →
        Termi.strContains msg "timeout" = false →
        Termi.strContains msg "quota" = false →
        Termi.formatLLMError (.plain msg) = "LLM 服务出错: " ++ msg) := by
  refine ⟨?_, ?_, ?_, ?_, ?_, ?_, ?_, ?_⟩
  · intro t msg; cases t <;> rfl
  · intro msg h; simp [Termi.classifyKind, h]
  · intro msg h1 h2; simp [Termi.classifyKind, h1, h2]
  · intro msg h1 h2 h3; simp [Termi.classifyKind, h1, h2, h3]
  · intro msg h1 h2 h3; simp [Termi.classifyKind, h1, h2, h3]
  · intro msg
    simp only [Termi.classifyKind]
    split_ifs <;> simp
  · intro msg; rfl
  · intro msg h1 h2 h3; simp [Termi.formatLLMError, h1, h2, h3]

/-- C6 witness: the classifier evaluated on a typed network failure and
on untyped quota and timeout messages. -/
theorem C6_amended_classifier_witness :
    Termi.classifyKind (.llmError .network "connection reset") = .network
  ∧ Termi.classifyKind (.plain "insufficient quota") = .quota
  ∧ Termi.classifyKind (.plain "request timeout") = .timeout := by
  refine ⟨C6_amended_classifier.1 .network "connection reset", ?_, ?_⟩
  · exact C6_amended_classifier.2.2.2.1 "insufficient quota"
      (by decide) (by decide) (by decide)
  · exact C6_amended_classifier.2.2.1 "request timeout" (by decide) (by decide)

/-- C7 counterexample: with the OpenAI backend active (its `Name()` is
`"OpenAI"`), the suggestion promoted into `StateSelecting` carries the
hard-coded source tag `"llm"`, not the provider's name. -/
theorem C7_counterexample :
    (Termi.Provider.mk "OpenAI" true).name = "OpenAI"
  ∧ (Termi.transitionToSelecting
        (((Termi.NewAppModel "ping baidu.com").init ⟨"OpenAI", true⟩).1)
        "ping -c 4 baidu.com").candidates
      = [⟨"ping -c 4 baidu.com", "llm"⟩]
  ∧ ("llm" : String) ≠ "OpenAI" := by decide

/-- C7 (amended): every suggestion promoted into the `StateSelecting`
candidate list carries the constant source tag `"llm"`, independent of
the model and of which backend produced the command. -/
theorem C7_amended_source (m : Termi.AppModel) (cmd : String) :
    (Termi.transitionToSelecting m cmd).candidates = [⟨cmd, "llm"⟩]
  ∧ (∀ s ∈ (Termi.transitionToSelecting m cmd).candidates,
        s.source = "llm") := by
  refine ⟨rfl, ?_⟩
  intro s hs
  simp only [Termi.transitionToSelecting, List.mem_singleton] at hs
  rw [hs]

/-- C7 witness: the amended promotion rule evaluated on a concrete
command. -/
theorem C7_amended_source_witness :
    (Termi.transitionToSelecting (Termi.NewAppModel "ls") "pwd").candidates
      = [⟨"pwd", "llm"⟩]
  ∧ (Termi.Suggestion.mk "pwd" "llm").source = "llm" := by
  refine ⟨(C7_amended_source (Termi.NewAppModel "ls") "pwd").1, ?_⟩
  exact (C7_amended_source (Termi.NewAppModel "ls") "pwd").2 ⟨"pwd", "llm"⟩
    (by decide)

end Termi
